import Mathlib

/-!
Verification development for the webless HTML parser
(crates/webless-html: parser.rs, ast.rs, parse_error.rs).

The parser works byte-wise over the UTF-8 bytes of the source string, so the
source is embedded as a `List Nat` of byte values and a cursor position is a
byte offset (`Nat`).  Every borrowed `&str` slice of the original source is
embedded as the corresponding byte-list slice.  Rust `Result<T, String>`
together with the panics the code can raise (`unwrap`, out-of-bounds string
indexing) and the fuel needed to make the mutually recursive grammar total in
Lean are embedded in `PRes`:

* `.ok a i`    — the production succeeded with value `a`, cursor now at `i`;
* `.err m i`   — the production returned `Err(m)` with the cursor at `i`
                 (the byte offset at the failure site);
* `.panic m`   — the Rust code panics (it does not return a `Result`);
* `.fuel`      — the recursion did not finish within the given fuel; the
                 grammar productions are mutually recursive through an
                 unbounded child-node loop, so they take a fuel parameter.

Scanning loops whose body only advances the cursor are embedded fuel-free by
structural recursion over the remaining byte list.
-/

/-- Attribute of an element: `name` and `value` are byte slices of the source
(`HTMLAttribute` in ast.rs). -/
structure HTMLAttribute where
  name : List Nat
  value : List Nat

/-- Document node (`HTMLNode` in ast.rs): foreign text, doctype, comment,
text run, or element with attributes and children. -/
inductive HTMLNode where
  | Foreign (s : List Nat)
  | Doctype (s : List Nat)
  | Comment (s : List Nat)
  | Text (s : List Nat)
  | Element (name : List Nat) (attributes : List HTMLAttribute) (children : List HTMLNode)

/-- A parsed document: the ordered top-level nodes (`HTMLDocument` in ast.rs). -/
structure HTMLDocument where
  html : List HTMLNode

/-- Result of a parsing production: success with new cursor index, an `Err`
with its message and the cursor index at the failure site, a Rust panic,
or fuel exhaustion of the Lean embedding. -/
inductive PRes (α : Type) : Type where
  | ok (a : α) (i : Nat)
  | err (msg : String) (i : Nat)
  | panic (msg : String)
  | fuel

/-- Sequencing of productions: the `?` early-return operator of the Rust code
(errors, panics and fuel exhaustion propagate). -/
def PRes.bind {α β : Type} (r : PRes α) (f : α → Nat → PRes β) : PRes β :=
  match r with
  | .ok a i => f a i
  | .err m i => .err m i
  | .panic m => .panic m
  | .fuel => .fuel

/-- Byte values of a (ASCII) string literal, for writing sources and tag names. -/
def bytes (s : String) : List Nat :=
  s.toList.map Char.toNat

/-- Byte slice `source[a..b]` of the source. -/
def byte_slice (src : List Nat) (a b : Nat) : List Nat :=
  (src.drop a).take (b - a)

/-- Space characters of the `space_chars!` macro: space, `\n`, `\r`, `\t`, form feed. -/
def is_space_char (b : Nat) : Bool :=
  b == 32 || b == 10 || b == 13 || b == 9 || b == 12

/-- Control characters of the `control_chars!` macro: `0x00..=0x08`, `0x0B`,
`0x0E..=0x1F`, `0x7F` (C0 controls minus the space characters, plus DEL). -/
def is_control_char (b : Nat) : Bool :=
  decide (b ≤ 8) || b == 11 || (decide (14 ≤ b) && decide (b ≤ 31)) || b == 127

/-- Alphanumeric ASCII bytes `0-9A-Za-z` (`current_is_alphanumeric`). -/
def is_alphanumeric (b : Nat) : Bool :=
  (decide (48 ≤ b) && decide (b ≤ 57)) || (decide (65 ≤ b) && decide (b ≤ 90))
    || (decide (97 ≤ b) && decide (b ≤ 122))

/-- ASCII lowercasing of one byte, as `u8::to_ascii_lowercase`. -/
def to_ascii_lowercase (b : Nat) : Nat :=
  if 65 ≤ b ∧ b ≤ 90 then b + 32 else b

/-- Byte-wise `eq_ignore_ascii_case` of two slices: equal lengths and equal
bytes after ASCII lowercasing. -/
def eq_ignore_ascii_case : List Nat → List Nat → Bool
  | [], [] => true
  | a :: as, b :: bs => to_ascii_lowercase a == to_ascii_lowercase b && eq_ignore_ascii_case as bs
  | _, _ => false

/-- Membership of a string in a fixed list, ignoring ASCII case
(`contains_ignore_ascii_case` in parser.rs). -/
def contains_ignore_ascii_case (list : List (List Nat)) (str : List Nat) : Bool :=
  list.any (fun term => eq_ignore_ascii_case term str)

/-- The fixed void-element set (`VOID_ELEMENTS` in parser.rs). -/
def VOID_ELEMENTS : List (List Nat) :=
  [bytes "area", bytes "base", bytes "br", bytes "col", bytes "command", bytes "embed",
   bytes "hr", bytes "img", bytes "input", bytes "keygen", bytes "link", bytes "meta",
   bytes "param", bytes "source", bytes "track", bytes "wbr"]

/-- The fixed foreign-element set (`FOREIGN_ELEMENTS` in parser.rs). -/
def FOREIGN_ELEMENTS : List (List Nat) :=
  [bytes "script", bytes "style", bytes "title", bytes "textarea", bytes "svg", bytes "math"]

/-- Cursor read `current()`: the byte at the offset, or none at or past the end. -/
def current (src : List Nat) (i : Nat) : Option Nat :=
  src.get? i

/-- Cursor lookahead `peek(offset)`. -/
def peek (src : List Nat) (i offset : Nat) : Option Nat :=
  src.get? (i + offset)

/-- Cursor test `next_match(chars)`: the remaining input starts with the given
bytes.  The Rust code slices `source.get(current_index..)`; every call site
passes an ASCII-led literal, which can never match at a UTF-8 continuation
byte, so the byte-list suffix is an equivalent embedding. -/
def next_match (src : List Nat) (i : Nat) (chars : List Nat) : Bool :=
  chars.isPrefixOf (src.drop i)

/-- One hexadecimal digit character, lowercase. -/
def hex_digit (n : Nat) : Char :=
  if n < 10 then Char.ofNat (48 + n) else Char.ofNat (87 + n)

/-- Rust `format!("{:#x}", b)` for a byte: `0x` and the digits, no padding. -/
def hex_byte (b : Nat) : String :=
  if b < 16 then String.mk ['0', 'x', hex_digit b]
  else String.mk ['0', 'x', hex_digit (b / 16), hex_digit (b % 16)]

/-- Render a byte slice of the source as the string the Rust code interpolates
into messages (tag names are ASCII, where this agrees with UTF-8). -/
def list_to_string (l : List Nat) : String :=
  String.mk (l.map Char.ofNat)

/-- Display of the current character used in error messages
(`current_as_string`): `[document end]` at the end, `[control character 0xNN]`
for control bytes, the character itself otherwise. -/
def current_as_string (src : List Nat) (i : Nat) : String :=
  match current src i with
  | none => "[document end]"
  | some b =>
      if is_control_char b then "[control character " ++ hex_byte b ++ "]"
      else String.mk [Char.ofNat b]

/-- Length of the maximal leading run of bytes satisfying `p`: the scanning
loops of the parser, which advance while a byte-class test holds. -/
def scan_run (p : Nat → Bool) : List Nat → Nat
  | [] => 0
  | b :: rest => if p b then scan_run p rest + 1 else 0

/-- Cursor helper `ignore_whitespace`: advance while the current byte is a
space character. -/
def ignore_whitespace (src : List Nat) (i : Nat) : Nat :=
  i + scan_run is_space_char (src.drop i)

/-- Cursor helper `consume_alphanumeric`: fail if the current byte is not
alphanumeric, else consume the maximal alphanumeric run; the `ok` value is the
consumed slice (the Rust code returns its index range into the source). -/
def consume_alphanumeric (src : List Nat) (i : Nat) : PRes (List Nat) :=
  if is_alphanumeric (match current src i with | some b => b | none => 0)
      ∧ current src i ≠ none then
    let n := scan_run is_alphanumeric (src.drop i)
    .ok (byte_slice src i (i + n)) (i + n)
  else
    .err ("Expected alphanumeric, found '" ++ current_as_string src i ++ "'") i

/-- Production `text`: a maximal run of bytes up to the next `<` or control
character; may be empty; always succeeds. -/
def text (src : List Nat) (i : Nat) : PRes HTMLNode :=
  let n := scan_run (fun b => !(is_control_char b || b == 60)) (src.drop i)
  .ok (.Text (byte_slice src i (i + n))) (i + n)

/-- Production `attribute` (`ParseString::attribute`): name run, then an
optional `=` with a quoted or unquoted value; no `=` gives the empty value. -/
def attribute_ (src : List Nat) (i : Nat) : PRes HTMLAttribute :=
  let n := scan_run
    (fun b => !(is_space_char b || is_control_char b || b == 34 || b == 39
      || b == 62 || b == 47 || b == 61)) (src.drop i)
  if n = 0 then .err "Expected attribute name" i
  else
    let j := i + n
    let name := byte_slice src i j
    if is_control_char (match current src j with | some b => b | none => 0)
        ∧ current src j ≠ none then
      .err ("Unexpected control character " ++ current_as_string src j) j
    else
      let k := ignore_whitespace src j
      if current src k = none then .err "Expected something after attribute name" k
      else if current src k = some 61 then
        let k1 := k + 1
        match current src k1 with
        | none => .err "Expected attribute value after =" k1
        | some q =>
          if q == 39 || q == 34 then
            let s := k1 + 1
            let m := scan_run (fun b => !(is_control_char b || b == q)) (src.drop s)
            let e := s + m
            if current src e = some q then
              .ok { name := name, value := byte_slice src s e } (e + 1)
            else
              .err ("Expected value-ending quote '" ++ String.mk [Char.ofNat q]
                ++ "', found '" ++ current_as_string src e ++ "'") e
          else
            let m := scan_run
              (fun b => !(is_control_char b || is_space_char b || b == 34 || b == 39
                || b == 61 || b == 62 || b == 60 || b == 96)) (src.drop k1)
            .ok { name := name, value := byte_slice src k1 (k1 + m) } (k1 + m)
      else .ok { name := name, value := [] } k

/-- Scanner of `foreign_text`: does the remaining input start with `</`
followed by `tag_name.length` bytes that case-insensitively equal the tag
name?  The Rust code reads those bytes with `source.get(..)`, which yields
`""` when the range leaves the source or splits a UTF-8 character, so the
candidate slice is empty in exactly those cases. -/
def foreign_closer_here (element_name : List Nat) : List Nat → Bool
  | 60 :: 47 :: rest =>
      let in_bounds := decide (element_name.length ≤ rest.length)
      let start_boundary :=
        match rest.head? with
        | none => true
        | some b => !(decide (128 ≤ b) && decide (b ≤ 191))
      let end_boundary :=
        match rest.get? element_name.length with
        | none => true
        | some b => !(decide (128 ≤ b) && decide (b ≤ 191))
      let candidate :=
        if in_bounds && start_boundary && end_boundary then
          rest.take element_name.length
        else []
      eq_ignore_ascii_case candidate element_name
  | _ => false

/-- Byte-by-byte scan of `foreign_text`: offset of the first position at which
`foreign_closer_here` holds, or none if the input is exhausted first. -/
def foreign_scan (element_name : List Nat) : List Nat → Option Nat
  | [] => none
  | b :: rest =>
      if foreign_closer_here element_name (b :: rest) then some 0
      else
        match foreign_scan element_name rest with
        | some n => some (n + 1)
        | none => none

/-- Production `foreign_text`: capture everything up to (excluding) the
closing tag of the foreign element, leaving `</` unconsumed; fail if the input
ends first. -/
def foreign_text (src : List Nat) (element_name : List Nat) (i : Nat) : PRes HTMLNode :=
  match foreign_scan element_name (src.drop i) with
  | some n => .ok (.Foreign (byte_slice src i (i + n))) (i + n)
  | none =>
      .err ("Expected closing tag </" ++ list_to_string element_name ++ ">") src.length

/-- Outcome of the comment body scan: `closer n` when `-->` starts `n` bytes
in, `double n` when a `--` not followed by `>` starts `n` bytes in, `eof` when
the input ends first. -/
inductive CommentScan where
  | closer (n : Nat)
  | double (n : Nat)
  | eof

/-- Body scan of `comment`: at each position, a leading `--` must be followed
by `>` (then the scan stops there) and is an error otherwise; any other byte
is consumed. -/
def comment_scan : List Nat → CommentScan
  | 45 :: 45 :: rest =>
      if rest.head? = some 62 then .closer 0 else .double 0
  | _ :: rest =>
      (match comment_scan rest with
       | .closer n => .closer (n + 1)
       | .double n => .double (n + 1)
       | .eof => .eof)
  | [] => .eof

/-- Production `comment`: consume `<!--` (validating the second `-`), reject a
body starting with `->` or `-`, scan the body, and consume the trailing `-->`. -/
def comment (src : List Nat) (i : Nat) : PRes HTMLNode :=
  let i1 := i + 3
  if current src i1 = some 45 then
    let s := i1 + 1
    if next_match src s (bytes "->") || current src s == some 45 then
      .err "Comments may not start with '>' or '->'" s
    else
      match comment_scan (src.drop s) with
      | .closer n => .ok (.Comment (byte_slice src s (s + n))) (s + n + 3)
      | .double n => .err "Comments may not contain '--'" (s + n)
      | .eof => .err "Expected comment tag closer '-->'" src.length
  else
    .err ("Expected second - in comment declaration '-', found '"
      ++ current_as_string src i1 ++ "'") i1

/-- UTF-8 char-boundary test of `str` indexing at `k` (in range): the byte at
`k` is not a continuation byte; at the very end it is a boundary. -/
def not_char_boundary (src : List Nat) (k : Nat) : Bool :=
  match src.get? k with
  | some b => decide (128 ≤ b) && decide (b ≤ 191)
  | none => false

/-- Production `doctype_declaration`: the code indexes
`source[(i + 2)..(i + 9)]`, which panics when fewer than seven bytes follow
`<!` or the slice ends off a character boundary; otherwise a case-insensitive
mismatch with `DOCTYPE` is the sentinel `Err(String::new())`, and the content
is scanned verbatim up to `>`. -/
def doctype_declaration (src : List Nat) (i : Nat) : PRes HTMLNode :=
  if decide (i + 9 > src.length) || not_char_boundary src (i + 2)
      || not_char_boundary src (i + 9) then
    .panic "byte index out of bounds of str slice"
  else if ¬ eq_ignore_ascii_case (byte_slice src (i + 2) (i + 9)) (bytes "DOCTYPE") then
    .err "" i
  else
    let j := ignore_whitespace src (i + 9)
    let n := scan_run (fun b => !(b == 62)) (src.drop j)
    let k := j + n
    if current src k = some 62 then .ok (.Doctype (byte_slice src j k)) (k + 1)
    else .err "Expected DOCTYPE tag closer '>'" src.length

/-- Closing-tag recognition of `element`, after the children: consume `</`, an
alphanumeric closing name that must case-insensitively equal the opening name,
optional whitespace, and `>`. -/
def close_tag (src : List Nat) (element_name : List Nat)
    (attributes : List HTMLAttribute) (children : List HTMLNode) (m : Nat) : PRes HTMLNode :=
  (consume_alphanumeric src (m + 2)).bind fun closing_tag_name j =>
  if ¬ eq_ignore_ascii_case closing_tag_name element_name then
    .err ("Mismatched closing tag: Expected '" ++ list_to_string element_name
      ++ "', found '" ++ list_to_string closing_tag_name ++ "'") j
  else
    let j1 := ignore_whitespace src j
    if current src j1 = some 62 then
      .ok (.Element element_name attributes children) (j1 + 1)
    else
      .err ("Expected end of opening tag '>', found '" ++ current_as_string src j1 ++ "'") j1

/-- Attribute-collection loop of `element`: parse attributes while the current
byte is neither `>` nor `/`, rejecting a name byte-for-byte equal to one
already collected on this element. -/
def attr_loop : Nat → List Nat → Nat → List HTMLAttribute → PRes (List HTMLAttribute)
  | 0, _, _, _ => .fuel
  | f + 1, src, i, attributes =>
    if current src i = some 62 || current src i = some 47 then .ok attributes i
    else
      (attribute_ src i).bind fun attr j =>
      if attributes.any (fun a => a.name == attr.name) then
        .err "Element has two attributes with the same name" j
      else
        attr_loop f src (ignore_whitespace src j) (attributes ++ [attr])

mutual

/-- Production `strict_node`: skip whitespace, require `<`, then dispatch on
the next byte (`!-` comment, `!` doctype with its errors collapsed into the
generic message, anything else element). -/
def strict_node : Nat → List Nat → Nat → PRes HTMLNode
  | 0, _, _ => .fuel
  | f + 1, src, i0 =>
    let i := ignore_whitespace src i0
    if current src i ≠ some 60 then
      .err ("Expected start of a node '<', found '" ++ current_as_string src i ++ "'") i
    else
      match peek src i 1 with
      | none => .err "Expected something after start of node" i
      | some 33 =>
          if peek src i 2 = some 45 then comment src i
          else
            match doctype_declaration src i with
            | .err _ j => .err "Expected doctype declaration or comment" j
            | r => r
      | some _ => element f src i
termination_by structural f => f

/-- Production `node`: text when the current byte is not `<`, else `strict_node`. -/
def node : Nat → List Nat → Nat → PRes HTMLNode
  | 0, _, _ => .fuel
  | f + 1, src, i =>
    if current src i ≠ some 60 then text src i else strict_node f src i
termination_by structural f => f

/-- Production `element`: `<`, tag name, attributes; void elements close after
an optional `/` and `>`; foreign elements take a single `foreign_text` child;
other elements take `node` children until `</`, then the closing tag. -/
def element : Nat → List Nat → Nat → PRes HTMLNode
  | 0, _, _ => .fuel
  | f + 1, src, i =>
    (consume_alphanumeric src (i + 1)).bind fun element_name j0 =>
    let j := ignore_whitespace src j0
    (attr_loop f src j []).bind fun attributes k =>
    if contains_ignore_ascii_case VOID_ELEMENTS element_name then
      let k1 := if current src k = some 47 then k + 1 else k
      if current src k1 = some 62 then
        .ok (.Element element_name attributes []) (k1 + 1)
      else
        .err ("Expected end of opening tag '>', found '" ++ current_as_string src k1 ++ "'") k1
    else
      if current src k = some 62 then
        let k1 := k + 1
        if contains_ignore_ascii_case FOREIGN_ELEMENTS element_name then
          (foreign_text src element_name k1).bind fun fchild m =>
          close_tag src element_name attributes [fchild] m
        else
          (children_loop f src element_name k1).bind fun children m =>
          close_tag src element_name attributes children m
      else
        .err ("Expected end of opening tag '>', found '" ++ current_as_string src k ++ "'") k
termination_by structural f => f

/-- Child-node loop of `element`: parse `node` children until the upcoming
bytes are `</`, failing when fewer than two bytes remain. -/
def children_loop : Nat → List Nat → List Nat → Nat → PRes (List HTMLNode)
  | 0, _, _, _ => .fuel
  | f + 1, src, element_name, i =>
    if next_match src i (bytes "</") then .ok [] i
    else if current src i = none || peek src i 1 = none then
      .err ("Expected matching closing tag for " ++ list_to_string element_name) i
    else
      (node f src i).bind fun child j =>
      (children_loop f src element_name j).bind fun rest k =>
      .ok (child :: rest) k
termination_by structural f => f

end

/-- Top-level loop of `ParseString::parse`: `strict_node` until the end of the
input; the collected nodes become the document. -/
def parse_nodes : Nat → List Nat → Nat → PRes (List HTMLNode)
  | 0, _, _ => .fuel
  | f + 1, src, i =>
    if decide (i ≥ src.length) then .ok [] i
    else
      (strict_node f src i).bind fun nd j =>
      (parse_nodes f src j).bind fun rest k =>
      .ok (nd :: rest) k

/-- Outcome of the public `parse` entry point: a document, a Rust panic, or
fuel exhaustion of the embedding. -/
inductive ParseOutcome where
  | ok (document : HTMLDocument)
  | panic (msg : String)
  | fuel

/-- Public entry point `parse`: runs the top-level loop from offset 0.  The
Rust loop body is `self.strict_node().unwrap()`, so the first production
error panics (it is not returned to the caller). -/
def parse (fuel : Nat) (src : List Nat) : ParseOutcome :=
  match parse_nodes fuel src 0 with
  | .ok nodes _ => .ok ⟨nodes⟩
  | .err msg _ => .panic msg
  | .panic msg => .panic msg
  | .fuel => .fuel

/-- Error record of parse_error.rs: message, line and column as
`ParseError::new` computes them. -/
structure ParseError where
  msg : String
  line : Nat
  col : Nat

/-- Line number of `ParseError::new`: the number of `\n` bytes strictly before
the byte offset (no one is added). -/
def line_of (src : List Nat) (byte_idx : Nat) : Nat :=
  ((src.take byte_idx).filter (fun b => b == 10)).length

/-- Index of the last `\n` byte strictly before the byte offset, 0 when there
is none (`unwrap_or((0, &0))` in `ParseError::new`). -/
def last_newline_idx (src : List Nat) (byte_idx : Nat) : Nat :=
  match ((src.take byte_idx).enum.filter (fun p => p.2 == 10)).getLast? with
  | some p => p.1
  | none => 0

/-- Constructor `ParseError::new`: line and column from the source and the
failure byte offset. -/
def ParseError.new (msg : String) (src : List Nat) (byte_idx : Nat) : ParseError :=
  { msg := msg
    line := line_of src byte_idx
    col := byte_idx - last_newline_idx src byte_idx }

/-- Display form of a `ParseError`: `[line:col] message`. -/
def ParseError.render (e : ParseError) : String :=
  "[" ++ toString e.line ++ ":" ++ toString e.col ++ "] " ++ e.msg

/-! ### Claim theorems -/

/-- C1: evaluation of the code at the failing input `"x"`: the first failure of
`strict_node` is hit by the `.unwrap()` of the top-level loop, so `parse`
panics with the bare failure message instead of returning an error value with
a source position to the caller. -/
theorem c1_parse_panics_on_first_failure :
    parse 10 (bytes "x") = .panic "Expected start of a node '<', found 'x'" := rfl

/-- C5: evaluation of `strict_node` at `<!` dispatch inputs: on `"<!D"` (fewer
than seven bytes after `<!`) the `source[(i + 2)..(i + 9)]` indexing of
`doctype_declaration` panics instead of producing the generic error; when the
slice is in bounds but does not spell `DOCTYPE`, the generic
"Expected doctype declaration or comment" error is produced as claimed. -/
theorem c5_doctype_short_input_panics :
    strict_node 1 (bytes "<!D") 0 = .panic "byte index out of bounds of str slice"
      ∧ parse 10 (bytes "<!D") = .panic "byte index out of bounds of str slice"
      ∧ strict_node 1 (bytes "<!DOCTYPX>") 0 = .err "Expected doctype declaration or comment" 0 :=
  ⟨rfl, rfl, rfl⟩

/-- C9: the end-to-end example: `<!DOCTYPE html><!--c--><p id="x">Hi</p>`
parses to exactly the three top-level nodes Doctype("html"), Comment("c") and
Element p with attribute id="x" and text child "Hi", in that order. -/
theorem c9_end_to_end_example :
    parse 100 (bytes "<!DOCTYPE html><!--c--><p id=\"x\">Hi</p>") =
      .ok ⟨[.Doctype (bytes "html"), .Comment (bytes "c"),
            .Element (bytes "p") [⟨bytes "id", bytes "x"⟩] [.Text (bytes "Hi")]]⟩ := rfl

/-- C4 counterexample: a comment whose content starts with a bare `>` is NOT
rejected; `<!-->x-->` parses successfully to Comment(">x"), although the claim
says a content starting with `>` fails immediately. -/
theorem c4_counterexample_gt_content_accepted :
    parse 20 (bytes "<!-->x-->") = .ok ⟨[.Comment (bytes ">x")]⟩ := rfl

/-- Helper: the filtered enumeration of the newline search ends exactly at the
last position holding a `10` byte. -/
theorem enumFrom_newline_getLast (L : List Nat) :
    ∀ (n j : Nat), L.get? j = some 10 → (∀ k, j < k → L.get? k ≠ some 10) →
      ((L.enumFrom n).filter (fun q => q.2 == 10)).getLast? = some (n + j, 10) := by
  induction L with
  | nil =>
    intro n j hj _
    simp at hj
  | cons b rest ih =>
    intro n j hj hafter
    rw [List.enumFrom_cons, List.filter_cons]
    cases j with
    | zero =>
      have hb : b = 10 := by simpa using hj
      have hrest : (List.enumFrom (n + 1) rest).filter (fun q => q.2 == 10) = [] := by
        rw [List.filter_eq_nil_iff]
        rintro ⟨k, a⟩ hmem
        obtain ⟨h1, h2, h3⟩ := List.mem_enumFrom hmem
        have hlt : k - (n + 1) < rest.length := by omega
        have hrk : rest.get? (k - (n + 1)) = some a := by
          rw [List.get?_eq_getElem?, List.getElem?_eq_getElem hlt, h3]
        have hne := hafter (k - (n + 1) + 1) (by omega)
        rw [List.get?_cons_succ] at hne
        rw [hrk] at hne
        simpa using fun h => hne (by rw [h])
      simp [hb, hrest]
    | succ j' =>
      have hj' : rest.get? j' = some 10 := by
        rw [List.get?_cons_succ] at hj
        exact hj
      have hafter' : ∀ k, j' < k → rest.get? k ≠ some 10 := by
        intro k hk
        have := hafter (k + 1) (by omega)
        rw [List.get?_cons_succ] at this
        exact this
      have hF := ih (n + 1) j' hj' hafter'
      by_cases hb : ((b == 10) : Bool)
      · simp only [hb, if_pos]
        cases hFl : (List.enumFrom (n + 1) rest).filter (fun q => q.2 == 10) with
        | nil => rw [hFl] at hF; simp at hF
        | cons c F' =>
          rw [hFl] at hF
          rw [List.getLast?_cons_cons, hF]
          simp
          omega
      · simp only [Bool.not_eq_true] at hb
        simp only [hb, Bool.false_eq_true, if_false]
        rw [hF]
        simp
        omega

/-- Helper: the last-newline search of `ParseError::new` finds the immediately
preceding newline. -/
theorem last_newline_idx_eq (src : List Nat) (idx j : Nat)
    (h1 : j < idx) (h2 : src.get? j = some 10)
    (h3 : ∀ k, j < k → k < idx → src.get? k ≠ some 10) :
    last_newline_idx src idx = j := by
  have hL : (src.take idx).get? j = some 10 := by rw [List.get?_take h1]; exact h2
  have hafter : ∀ k, j < k → (src.take idx).get? k ≠ some 10 := by
    intro k hk
    by_cases hki : k < idx
    · rw [List.get?_take hki]
      exact h3 k hk hki
    · rw [List.get?_eq_none.mpr]
      · simp
      · rw [List.length_take]
        omega
  have hmain := enumFrom_newline_getLast (src.take idx) 0 j hL hafter
  unfold last_newline_idx
  rw [show (src.take idx).enum = List.enumFrom 0 (src.take idx) from rfl, hmain]
  simp

/-- Helper: with no newline before the offset, the search of `ParseError::new`
defaults to index 0. -/
theorem last_newline_idx_of_no_newline (src : List Nat) (idx : Nat)
    (h : ∀ k, k < idx → src.get? k ≠ some 10) :
    last_newline_idx src idx = 0 := by
  unfold last_newline_idx
  have hnil : (src.take idx).enum.filter (fun q => q.2 == 10) = [] := by
    rw [List.filter_eq_nil_iff]
    rintro ⟨k, a⟩ hmem
    obtain ⟨h1, h2, h3⟩ := List.mem_enumFrom hmem
    have hlen : (src.take idx).length ≤ idx := by
      rw [List.length_take]
      omega
    have hki : k < idx := by omega
    have hsk : src.get? k = some a := by
      have hlt : k < (src.take idx).length := by omega
      have : (src.take idx).get? k = some a := by
        rw [List.get?_eq_getElem?, List.getElem?_eq_getElem hlt, h3]
        simp
      rw [List.get?_take hki] at this
      exact this
    have := h k hki
    rw [hsk] at this
    simpa using fun hh => this (by rw [hh])
  rw [hnil]
  rfl

/-- C3 counterexample: parsing `<p>\n<q></p>` fails at byte offset 10 (the
mismatched closing tag on the second line), but the reported line of
`ParseError::new` at that offset is 1, not the 2 the claim requires: the code
counts the `\n` bytes before the offset without adding one. -/
theorem c3_counterexample_line_off_by_one :
    parse_nodes 100 (bytes "<p>\n<q></p>") 0 =
      .err "Mismatched closing tag: Expected 'q', found 'p'" 10
    ∧ (ParseError.new "Mismatched closing tag: Expected 'q', found 'p'"
        (bytes "<p>\n<q></p>") 10).line ≠ 2 :=
  ⟨rfl, by decide⟩

/-- C3 amended: `ParseError::new` computes the line as the number of `\n`
bytes strictly before the offset, with nothing added (so offsets on the first
line report line 0), and the column as the offset minus the index of the
immediately preceding `\n` (or minus 0 when none precedes); the example
`<p>\n<q></p>` fails at byte offset 10 and reports line 1, column 7. -/
theorem c3_amended_line_and_column :
    (∀ (m : String) (src : List Nat) (idx : Nat),
      (ParseError.new m src idx).line = (src.take idx).count 10)
    ∧ (∀ (m : String) (src : List Nat) (idx j : Nat),
      j < idx → src.get? j = some 10 →
      (∀ k, j < k → k < idx → src.get? k ≠ some 10) →
      (ParseError.new m src idx).col = idx - j)
    ∧ (∀ (m : String) (src : List Nat) (idx : Nat),
      (∀ k, k < idx → src.get? k ≠ some 10) →
      (ParseError.new m src idx).col = idx)
    ∧ parse_nodes 100 (bytes "<p>\n<q></p>") 0 =
        .err "Mismatched closing tag: Expected 'q', found 'p'" 10
    ∧ (ParseError.new "Mismatched closing tag: Expected 'q', found 'p'"
        (bytes "<p>\n<q></p>") 10).line = 1
    ∧ (ParseError.new "Mismatched closing tag: Expected 'q', found 'p'"
        (bytes "<p>\n<q></p>") 10).col = 7 := by
  refine ⟨?_, ?_, ?_, rfl, by decide, by decide⟩
  · intro m src idx
    simp [ParseError.new, line_of, List.count_eq_countP, List.countP_eq_length_filter]
  · intro m src idx j h1 h2 h3
    simp [ParseError.new, last_newline_idx_eq src idx j h1 h2 h3]
  · intro m src idx h
    simp [ParseError.new, last_newline_idx_of_no_newline src idx h]

/-- C3 witness: the column contract applied at the example offset, with the
immediately preceding newline at index 3. -/
theorem c3_amended_line_and_column_witness :
    (ParseError.new "Mismatched closing tag: Expected 'q', found 'p'"
      (bytes "<p>\n<q></p>") 10).col = 10 - 3 :=
  c3_amended_line_and_column.2.1 "Mismatched closing tag: Expected 'q', found 'p'"
    (bytes "<p>\n<q></p>") 10 3 (by decide) (by decide)
    (by intro k hk1 hk2; interval_cases k <;> decide)

/-- Input on which the child-node loop of `element` makes no progress: the
control byte `0x01` stands between `<a>` and `</a>`. -/
def looping_input : List Nat := bytes "<a>\x01</a>"

/-- Helper: on `looping_input` the child-node loop at offset 3 spins forever:
`text` returns an empty run without advancing past the control byte, so every
amount of fuel is exhausted. -/
theorem children_loop_spins_on_control_byte :
    ∀ f, children_loop f looping_input [97] 3 = PRes.fuel := by
  intro f
  induction f with
  | zero => rfl
  | succ f ih =>
    cases f with
    | zero => rfl
    | succ g =>
      have step : children_loop (g + 1 + 1) looping_input [97] 3 =
          (children_loop (g + 1) looping_input [97] 3).bind
            (fun rest k => PRes.ok (HTMLNode.Text [] :: rest) k) := rfl
      rw [step, ih]
      rfl

/-- C2: refutation of termination at the failing input `<a>\x01</a>`: for
every amount of fuel the embedded parse is still running (the Rust parse, with
no fuel bound, loops forever re-parsing an empty text run at the control
byte inside the element). -/
theorem c2_parse_loops_forever :
    ∀ fuel, parse fuel looping_input = ParseOutcome.fuel := by
  intro fuel
  match fuel with
  | 0 => rfl
  | 1 => rfl
  | 2 => rfl
  | 3 => rfl
  | g + 4 =>
    have h : children_loop (g + 1) looping_input [97] 3 = PRes.fuel :=
      children_loop_spins_on_control_byte (g + 1)
    have hsn : strict_node (g + 3) looping_input 0 = PRes.fuel := by
      have step : strict_node (g + 3) looping_input 0 =
          (children_loop (g + 1) looping_input [97] 3).bind
            (fun children m => close_tag looping_input [97] [] children m) := rfl
      rw [step, h]
      rfl
    have hpn : parse_nodes (g + 4) looping_input 0 = PRes.fuel := by
      have step : parse_nodes (g + 4) looping_input 0 =
          (strict_node (g + 3) looping_input 0).bind
            (fun nd j => (parse_nodes (g + 3) looping_input j).bind
              (fun rest k => PRes.ok (nd :: rest) k)) := rfl
      rw [step, hsn]
      rfl
    show (match parse_nodes (g + 4) looping_input 0 with
      | .ok nodes _ => ParseOutcome.ok ⟨nodes⟩
      | .err msg _ => ParseOutcome.panic msg
      | .panic msg => ParseOutcome.panic msg
      | .fuel => ParseOutcome.fuel) = ParseOutcome.fuel
    rw [hpn]

/-- C4 amended: `comment` consumes `<!--` (validating the second `-`), fails
immediately exactly when the content starts with `-` (which subsumes `->`;
content starting with a bare `>` is accepted), fails on an internal `--` not
followed by `>`, and otherwise returns the span between the delimiters:
`<!---->` fails, `<!--x-->` is Comment("x"), `<!--a--b-->` fails, and
`<!-->x-->` is Comment(">x"). -/
theorem c4_amended_comment_rules :
    (∀ (src : List Nat) (i : Nat),
      current src (i + 3) = some 45 → current src (i + 4) = some 45 →
      comment src i = .err "Comments may not start with '>' or '->'" (i + 4))
    ∧ parse 20 (bytes "<!---->") = .panic "Comments may not start with '>' or '->'"
    ∧ parse 20 (bytes "<!--x-->") = .ok ⟨[.Comment (bytes "x")]⟩
    ∧ parse 20 (bytes "<!--a--b-->") = .panic "Comments may not contain '--'"
    ∧ parse 20 (bytes "<!-->x-->") = .ok ⟨[.Comment (bytes ">x")]⟩ := by
  refine ⟨?_, rfl, rfl, rfl, rfl⟩
  intro src i h3 h4
  simp [comment, h3, h4]

/-- C4 witness: the immediate-failure rule applied to the concrete comment
`<!---->` at offset 0. -/
theorem c4_amended_comment_rules_witness :
    comment (bytes "<!---->") 0 = .err "Comments may not start with '>' or '->'" 4 :=
  c4_amended_comment_rules.1 (bytes "<!---->") 0 rfl rfl

/-- Helper: whenever the closing-tag recognition succeeds it returns exactly
the element assembled from the name, attributes and children it was given. -/
theorem close_tag_ok_shape (src en : List Nat) (attrs : List HTMLAttribute)
    (ch : List HTMLNode) (m : Nat) (nd : HTMLNode) (j : Nat)
    (h : close_tag src en attrs ch m = .ok nd j) : nd = .Element en attrs ch := by
  unfold close_tag at h
  cases hc : consume_alphanumeric src (m + 2) with
  | ok cn j' =>
    rw [hc] at h
    simp only [PRes.bind] at h
    split at h
    · simp at h
    · split at h
      · injection h with h1 h2
        exact h1.symm
      · simp at h
  | err m' i' => rw [hc] at h; simp only [PRes.bind] at h; simp at h
  | panic m' => rw [hc] at h; simp only [PRes.bind] at h; simp at h
  | fuel => rw [hc] at h; simp only [PRes.bind] at h; simp at h

/-- C6: an element whose (case-insensitively matched) name is in the fixed
void-element set never carries children, and `<br>`, `<br/>` and `<br />` all
parse to the same Element with empty attributes and children. -/
theorem c6_void_elements_have_no_children :
    (∀ (f : Nat) (src : List Nat) (i : Nat) (name : List Nat)
      (attrs : List HTMLAttribute) (children : List HTMLNode) (j : Nat),
      element f src i = .ok (.Element name attrs children) j →
      contains_ignore_ascii_case VOID_ELEMENTS name = true →
      children = [])
    ∧ parse 10 (bytes "<br>") = .ok ⟨[.Element (bytes "br") [] []]⟩
    ∧ parse 10 (bytes "<br/>") = .ok ⟨[.Element (bytes "br") [] []]⟩
    ∧ parse 10 (bytes "<br />") = .ok ⟨[.Element (bytes "br") [] []]⟩ := by
  refine ⟨?_, rfl, rfl, rfl⟩
  intro f src i name attrs children j h hvoid
  cases f with
  | zero => simp [element] at h
  | succ f =>
    simp only [element] at h
    cases hc : consume_alphanumeric src (i + 1) with
    | ok en j0 =>
      rw [hc] at h
      simp only [PRes.bind] at h
      cases ha : attr_loop f src (ignore_whitespace src j0) [] with
      | ok attrs' k =>
        rw [ha] at h
        simp only [PRes.bind] at h
        by_cases hv : contains_ignore_ascii_case VOID_ELEMENTS en = true
        · rw [if_pos hv] at h
          split at h <;> split at h <;>
            first
            | (simp at h; exact h.1.2.2)
            | simp at h
        · rw [if_neg hv] at h
          split at h
          · split at h
            · cases hf : foreign_text src en (k + 1) with
              | ok fc m =>
                rw [hf] at h
                simp only [PRes.bind] at h
                have hshape := close_tag_ok_shape src en attrs' [fc] m _ _ h
                injection hshape with e1 e2 e3
                subst e1
                exact absurd hvoid hv
              | err m' i' => rw [hf] at h; simp only [PRes.bind] at h; simp at h
              | panic m' => rw [hf] at h; simp only [PRes.bind] at h; simp at h
              | fuel => rw [hf] at h; simp only [PRes.bind] at h; simp at h
            · cases hcl : children_loop f src en (k + 1) with
              | ok ch m =>
                rw [hcl] at h
                simp only [PRes.bind] at h
                have hshape := close_tag_ok_shape src en attrs' ch m _ _ h
                injection hshape with e1 e2 e3
                subst e1
                exact absurd hvoid hv
              | err m' i' => rw [hcl] at h; simp only [PRes.bind] at h; simp at h
              | panic m' => rw [hcl] at h; simp only [PRes.bind] at h; simp at h
              | fuel => rw [hcl] at h; simp only [PRes.bind] at h; simp at h
          · simp at h
      | err m' i' => rw [ha] at h; simp only [PRes.bind] at h; simp at h
      | panic m' => rw [ha] at h; simp only [PRes.bind] at h; simp at h
      | fuel => rw [ha] at h; simp only [PRes.bind] at h; simp at h
    | err m' i' => rw [hc] at h; simp only [PRes.bind] at h; simp at h
    | panic m' => rw [hc] at h; simp only [PRes.bind] at h; simp at h
    | fuel => rw [hc] at h; simp only [PRes.bind] at h; simp at h

/-- C6 witness: the void rule applied to the concrete parse of `<br>`. -/
theorem c6_void_elements_have_no_children_witness :
    ([] : List HTMLNode) = [] :=
  c6_void_elements_have_no_children.1 5 (bytes "<br>") 0 (bytes "br") [] [] 4 rfl rfl

/-- Helper: when the foreign-content scan reports offset `n`, a matching
closer starts exactly there and at no earlier offset. -/
theorem foreign_scan_finds_first (en : List Nat) :
    ∀ (l : List Nat) (n : Nat), foreign_scan en l = some n →
      foreign_closer_here en (l.drop n) = true ∧
      ∀ m, m < n → foreign_closer_here en (l.drop m) = false := by
  intro l
  induction l with
  | nil =>
    intro n h
    simp [foreign_scan] at h
  | cons b rest ih =>
    intro n h
    cases hc : foreign_closer_here en (b :: rest) with
    | true =>
      simp [foreign_scan, hc] at h
      subst h
      exact ⟨hc, fun m hm => absurd hm (by omega)⟩
    | false =>
      simp only [foreign_scan, hc, Bool.false_eq_true, if_false] at h
      cases hr : foreign_scan en rest with
      | none => rw [hr] at h; simp at h
      | some n' =>
        rw [hr] at h
        simp at h
        subst h
        obtain ⟨h1, h2⟩ := ih n' hr
        refine ⟨h1, ?_⟩
        intro m hm
        cases m with
        | zero => exact hc
        | succ m' => exact h2 m' (by omega)

/-- Helper: when the foreign-content scan reports no match, no offset of the
scanned input starts a matching closer. -/
theorem foreign_scan_none_no_closer (en : List Nat) :
    ∀ (l : List Nat), foreign_scan en l = none →
      ∀ m, foreign_closer_here en (l.drop m) = false := by
  intro l
  induction l with
  | nil =>
    intro _ m
    rw [List.drop_nil]
    rfl
  | cons b rest ih =>
    intro h m
    cases hc : foreign_closer_here en (b :: rest) with
    | true => simp [foreign_scan, hc] at h
    | false =>
      simp only [foreign_scan, hc, Bool.false_eq_true, if_false] at h
      cases hr : foreign_scan en rest with
      | some n' => rw [hr] at h; simp at h
      | none =>
        cases m with
        | zero => exact hc
        | succ m' => exact ih hr m'

/-- C7: `foreign_text` stops exactly before the first `</` whose following
bytes case-insensitively spell the tag name, returning the scanned span and
leaving the `</` unconsumed; it fails (with the cursor at the end of input)
exactly when no position carries such a closer; and the example
`<script>a < b </not-script> still here</script>` parses to a script element
whose single child is the opaque Foreign span. -/
theorem c7_foreign_text_stops_at_first_closer :
    (∀ (src en : List Nat) (i : Nat) (nd : HTMLNode) (j : Nat),
      foreign_text src en i = .ok nd j →
      i ≤ j ∧ nd = .Foreign (byte_slice src i j)
        ∧ foreign_closer_here en (src.drop j) = true
        ∧ ∀ k, i ≤ k → k < j → foreign_closer_here en (src.drop k) = false)
    ∧ (∀ (src en : List Nat) (i : Nat) (m : String) (j : Nat),
      foreign_text src en i = .err m j →
      j = src.length ∧ ∀ k, i ≤ k → foreign_closer_here en (src.drop k) = false)
    ∧ parse 100 (bytes "<script>a < b </not-script> still here</script>") =
        .ok ⟨[.Element (bytes "script") []
          [.Foreign (bytes "a < b </not-script> still here")]]⟩ := by
  refine ⟨?_, ?_, rfl⟩
  · intro src en i nd j h
    unfold foreign_text at h
    cases hs : foreign_scan en (src.drop i) with
    | some n =>
      rw [hs] at h
      injection h with h1 h2
      subst h2
      obtain ⟨hcl, hbefore⟩ := foreign_scan_finds_first en (src.drop i) n hs
      refine ⟨Nat.le_add_right i n, h1.symm, ?_, ?_⟩
      · rwa [List.drop_drop] at hcl
      · intro k hk1 hk2
        have := hbefore (k - i) (by omega)
        rwa [List.drop_drop, show i + (k - i) = k from by omega] at this
    | none => rw [hs] at h; simp at h
  · intro src en i m j h
    unfold foreign_text at h
    cases hs : foreign_scan en (src.drop i) with
    | some n => rw [hs] at h; simp at h
    | none =>
      rw [hs] at h
      injection h with h1 h2
      refine ⟨h2.symm, ?_⟩
      intro k hk
      have := foreign_scan_none_no_closer en (src.drop i) hs (k - i)
      rwa [List.drop_drop, show i + (k - i) = k from by omega] at this

/-- C7 witness: the success contract applied to a concrete foreign body
`abc</x>` scanned for tag name `x`. -/
theorem c7_foreign_text_stops_at_first_closer_witness :
    foreign_closer_here (bytes "x") ((bytes "abc</x>").drop 3) = true :=
  (c7_foreign_text_stops_at_first_closer.1 (bytes "abc</x>") (bytes "x") 0
    (.Foreign (bytes "abc")) 3 rfl).2.2.1

/-- Helper: the attribute-collection loop preserves case-sensitive
distinctness of the collected attribute names. -/
theorem attr_loop_names_nodup :
    ∀ (f : Nat) (src : List Nat) (i : Nat) (acc res : List HTMLAttribute) (j : Nat),
      attr_loop f src i acc = .ok res j →
      (acc.map (fun a => a.name)).Nodup → (res.map (fun a => a.name)).Nodup := by
  intro f
  induction f with
  | zero =>
    intro src i acc res j h _
    simp [attr_loop] at h
  | succ f ih =>
    intro src i acc res j h hacc
    rw [attr_loop] at h
    split at h
    · injection h with h1 h2
      subst h1
      exact hacc
    · cases ha : attribute_ src i with
      | ok attr j' =>
        rw [ha] at h
        simp only [PRes.bind] at h
        split at h
        · simp at h
        · rename_i hdup
          apply ih _ _ _ _ _ h
          rw [List.map_append, List.nodup_append]
          refine ⟨hacc, by simp, ?_⟩
          intro x hx hx2
          simp only [List.map_cons, List.map_nil, List.mem_singleton] at hx2
          subst hx2
          obtain ⟨a, hmem, hname⟩ := List.mem_map.mp hx
          have hall := List.any_eq_false.mp (Bool.eq_false_iff.mpr hdup) a hmem
          exact hall (by simp [hname])
      | err m' i' => rw [ha] at h; simp only [PRes.bind] at h; simp at h
      | panic m' => rw [ha] at h; simp only [PRes.bind] at h; simp at h
      | fuel => rw [ha] at h; simp only [PRes.bind] at h; simp at h

/-- C8: attribute collection rejects exactly byte-for-byte duplicate names:
any successful collection has pairwise (case-sensitively) distinct names,
`<a href="1" href="2">` fails with the duplicate-attribute error, while the
attribute list of `<a href="1" HREF="2">` is accepted as the two attributes
href and HREF, in order. -/
theorem c8_duplicate_attribute_rejection :
    (∀ (f : Nat) (src : List Nat) (i : Nat) (attrs : List HTMLAttribute) (j : Nat),
      attr_loop f src i [] = .ok attrs j →
      (attrs.map (fun a => a.name)).Nodup)
    ∧ parse 100 (bytes "<a href=\"1\" href=\"2\">") =
        .panic "Element has two attributes with the same name"
    ∧ attr_loop 10 (bytes "<a href=\"1\" HREF=\"2\">") 3 [] =
        .ok [⟨bytes "href", bytes "1"⟩, ⟨bytes "HREF", bytes "2"⟩] 20 := by
  refine ⟨?_, rfl, rfl⟩
  intro f src i attrs j h
  exact attr_loop_names_nodup f src i [] attrs j h (by simp)

/-- C8 witness: the distinctness contract applied to the accepted collection
of href and HREF. -/
theorem c8_duplicate_attribute_rejection_witness :
    (([⟨bytes "href", bytes "1"⟩, ⟨bytes "HREF", bytes "2"⟩] : List HTMLAttribute).map
      (fun a => a.name)).Nodup :=
  c8_duplicate_attribute_rejection.1 10 (bytes "<a href=\"1\" HREF=\"2\">") 3 _ 20 rfl

/-- Helper: the whitespace scan consumes an all-whitespace list entirely. -/
theorem scan_run_all_space :
    ∀ (l : List Nat), (∀ b ∈ l, is_space_char b = true) →
      scan_run is_space_char l = l.length := by
  intro l
  induction l with
  | nil => intro _; rfl
  | cons b rest ih =>
    intro h
    simp only [scan_run, h b (by simp), if_pos, List.length_cons]
    rw [ih (fun x hx => h x (by simp [hx]))]

/-- Helper: when everything from the cursor on is whitespace, `strict_node`
skips it, reaches the end of input and fails with the start-of-node error. -/
theorem strict_node_trailing_whitespace (f : Nat) (src : List Nat) (i : Nat)
    (hle : i ≤ src.length) (hws : ∀ b ∈ src.drop i, is_space_char b = true) :
    strict_node (f + 1) src i =
      .err "Expected start of a node '<', found '[document end]'" src.length := by
  have hig : ignore_whitespace src i = src.length := by
    unfold ignore_whitespace
    rw [scan_run_all_space _ hws, List.length_drop]
    omega
  have hcur : current src src.length = none := by
    simp [current, List.get?_eq_none]
  simp only [strict_node, hig, hcur, current_as_string]
  simp

/-- C10: the empty input parses to the empty document, while trailing
whitespace is not accepted: at any position from which only whitespace bytes
remain, the re-entered `strict_node` skips them, reaches the end of input and
fails with the start-of-node error, so a non-empty all-whitespace input (and
likewise `<br> `) makes the parse fail with that error. -/
theorem c10_trailing_whitespace_rejected :
    (∀ f : Nat, parse (f + 1) [] = .ok ⟨[]⟩)
    ∧ (∀ (f : Nat) (src : List Nat) (i : Nat),
        i ≤ src.length → (∀ b ∈ src.drop i, is_space_char b = true) →
        strict_node (f + 1) src i =
          .err "Expected start of a node '<', found '[document end]'" src.length)
    ∧ (∀ (f : Nat) (ws : List Nat), ws ≠ [] → (∀ b ∈ ws, is_space_char b = true) →
        parse (f + 2) ws = .panic "Expected start of a node '<', found '[document end]'")
    ∧ parse 100 (bytes "<br> ") =
        .panic "Expected start of a node '<', found '[document end]'" := by
  refine ⟨fun f => rfl, strict_node_trailing_whitespace, ?_, rfl⟩
  intro f ws hne hws
  have hlen : 0 < ws.length := List.length_pos.mpr hne
  have hsn := strict_node_trailing_whitespace f ws 0 (by omega) (by simpa using hws)
  have hpn : parse_nodes (f + 1 + 1) ws 0 =
      PRes.err "Expected start of a node '<', found '[document end]'" ws.length := by
    have hcond : ¬(decide (0 ≥ ws.length) = true) := by
      simp only [decide_eq_true_eq, ge_iff_le, Nat.le_zero]
      omega
    rw [parse_nodes, if_neg hcond, hsn]
    rfl
  show (match parse_nodes (f + 1 + 1) ws 0 with
    | .ok nodes _ => ParseOutcome.ok ⟨nodes⟩
    | .err msg _ => ParseOutcome.panic msg
    | .panic msg => ParseOutcome.panic msg
    | .fuel => ParseOutcome.fuel) = ParseOutcome.panic "Expected start of a node '<', found '[document end]'"
  rw [hpn]

/-- C10 witness: a single space is rejected with the start-of-node error at
the end of input, while the empty input succeeds. -/
theorem c10_trailing_whitespace_rejected_witness :
    parse 2 [32] = .panic "Expected start of a node '<', found '[document end]'"
    ∧ parse 1 [] = .ok ⟨[]⟩ :=
  ⟨c10_trailing_whitespace_rejected.2.2.1 0 [32] (by simp) (by decide),
   c10_trailing_whitespace_rejected.1 0⟩
